import Mathlib

/-!
# State sync reactor: a shallow embedding of `statesync/reactor.go`

This file embeds the state-sync reactor of the repository (the file
`statesync/reactor.go`) as executable Lean definitions and proves the
frozen claims about it.

The reactor's data model (`Snapshot`, `SnapshotChunk`), the four wire
messages and their `ValidateBasic` validators, `decodeMsg`, and the
`Receive` dispatch are translated directly from the source.  The `Sync`
restore state machine (`sync.go`) is not among the sources: only its
callers in `reactor.go` are.  Its behaviour (`Start`, `Apply`,
`NextChunk`, `IsActive`, `IsDone`) is therefore modelled from the spec
(section 4.3), with each such definition marked `Modelled from the
spec:` in its doc comment.  Following the spec's description of the
source (sections 7 and 9: the source panics on fatal apply errors
instead of entering a `Failed` state), the modelled machine has the
three states `Idle`, `Active {snapshot, nextChunk}`, `Done {height,
format}`, and fatal errors surface to the reactor, which panics.

Go byte slices are modelled as `List Nat`, `uint64`/`uint32` as `Nat`
(the code performs no arithmetic that could overflow: it only compares
fields and increments a chunk counter that is bounded by the snapshot's
chunk count).  The amino codec is an external collaborator; `decodeMsg`
is parametrised by the inner codec function and contributes the size
bound from the source.  Peer effects (`src.Send`, `StopPeerForError`,
app calls, panics) are recorded in an explicit result structure.
-/

namespace StateSync

/-- Channel constant from the source: `MetadataChannel = byte(0x60)`. -/
def MetadataChannel : Nat := 0x60

/-- Channel constant from the source: `ChunkChannel = byte(0x61)`. -/
def ChunkChannel : Nat := 0x61

/-- Size constant from the source: `maxMsgSize = int(65e6)`. -/
def maxMsgSize : Nat := 65000000

/-- Snapshot metadata, from the source `type Snapshot struct`. -/
structure Snapshot where
  Height : Nat
  Format : Nat
  Chunks : Nat
  Metadata : List Nat
deriving Repr, DecidableEq

/-- One snapshot chunk, from the source `type SnapshotChunk struct`.
The Go field `Checksum [sha1.Size]byte` is modelled as a byte list. -/
structure SnapshotChunk where
  Height : Nat
  Chunk : Nat
  Format : Nat
  Data : List Nat
  Checksum : List Nat
deriving Repr, DecidableEq

/-- The four wire messages of the protocol, from the source message
types registered with the codec. -/
inductive Message where
  | listSnapshotsRequest : Message
  | listSnapshotsResponse (Snapshots : List Snapshot) : Message
  | getSnapshotChunkRequest (Height Format Chunk : Nat) : Message
  | getSnapshotChunkResponse (Chunk : SnapshotChunk) : Message
deriving Repr, DecidableEq

/-- From the source `func (s *Snapshot) ValidateBasic`: the only check
is that the height is non-zero (the chunk count is not inspected). -/
def Snapshot.ValidateBasic (s : Snapshot) : Bool :=
  s.Height ≠ 0

/-- From the source `func (c *SnapshotChunk) ValidateBasic`: height and
chunk index must be non-zero. -/
def SnapshotChunk.ValidateBasic (c : SnapshotChunk) : Bool :=
  c.Height ≠ 0 && c.Chunk ≠ 0

/-- From the source `ValidateBasic` methods of the four message types:
a list-snapshots request is always valid, a list-snapshots response is
valid when each snapshot is, a chunk request needs non-zero height and
chunk, a chunk response validates its inner chunk. -/
def Message.ValidateBasic : Message → Bool
  | .listSnapshotsRequest => true
  | .listSnapshotsResponse snaps => snaps.all (·.ValidateBasic)
  | .getSnapshotChunkRequest h _ c => h ≠ 0 && c ≠ 0
  | .getSnapshotChunkResponse c => c.ValidateBasic

/-- Decode errors of `decodeMsg`: the explicit oversize error from the
source, or a failure of the (external) amino codec. -/
inductive DecodeErr where
  | oversizeMessage : DecodeErr
  | codecFailure : DecodeErr
deriving Repr, DecidableEq

/-- From the source `func decodeMsg`: reject byte strings longer than
`maxMsgSize`, then hand the bytes to the amino codec.  The codec itself
is an external collaborator and is passed in as `dec`. -/
def decodeMsg (dec : List Nat → Option Message) (bz : List Nat) :
    Except DecodeErr Message :=
  if bz.length > maxMsgSize then .error .oversizeMessage
  else
    match dec bz with
    | some m => .ok m
    | none => .error .codecFailure

/-- Outcome of the application's `OfferSnapshot` call.  The spec
(sections 4.2 and 6) fixes the outcome space: `Accept`, `Reject`,
`RejectFormat`, `RejectHeight`; the reactor maps the three rejections
to the benign errors `ErrSnapshotRejected`, `ErrSnapshotRejectedFormat`
and `ErrSnapshotRejectedHeight`. -/
inductive OfferResult where
  | accept : OfferResult
  | reject : OfferResult
  | rejectFormat : OfferResult
  | rejectHeight : OfferResult
deriving Repr, DecidableEq

/-- The application connection consumed by the reactor (spec section
4.2): list snapshots, load a chunk, offer a snapshot, apply a chunk.
Each is an external collaborator, modelled as a function the results of
which parametrise the theorems.  `applyChunk` returns `true` on a
successful apply. -/
structure AppConn where
  listSnapshots : Except Unit (List Snapshot)
  getSnapshotChunk : Nat → Nat → Nat → Except Unit (Option SnapshotChunk)
  offerSnapshot : Snapshot → OfferResult
  applyChunk : SnapshotChunk → Bool

/-- Modelled from the spec: the states of the `Sync` restore state
machine (spec section 4.3), whose source file `sync.go` is not among
the sources.  Per the spec's description of the source (sections 7 and
9), fatal apply errors panic instead of entering a `Failed` state, so
the machine has three states: idle, active with the accepted snapshot
and the next chunk index to fetch, and done with the restored height
and format. -/
inductive SyncState where
  | idle : SyncState
  | active (snapshot : Snapshot) (nextChunk : Nat) : SyncState
  | done (height format : Nat) : SyncState
deriving Repr, DecidableEq

/-- Modelled from the spec: `Sync.IsActive`. -/
def SyncState.IsActive : SyncState → Bool
  | .active _ _ => true
  | _ => false

/-- Modelled from the spec: `Sync.IsDone`. -/
def SyncState.IsDone : SyncState → Bool
  | .done _ _ => true
  | _ => false

/-- Errors returned by `Sync.Start` and `Sync.Apply` to the reactor.
The three rejection errors are benign (the reactor tries the next
candidate); every other error makes the reactor panic. -/
inductive SyncErr where
  | snapshotRejected : SyncErr
  | snapshotRejectedFormat : SyncErr
  | snapshotRejectedHeight : SyncErr
  | alreadyActive : SyncErr
  | chunkMismatch : SyncErr
  | chunkApplyFailed : SyncErr
  | noRestoreInProgress : SyncErr
deriving Repr, DecidableEq

/-- Modelled from the spec: `Sync.Start` (spec section 4.3).  In the
idle state the snapshot is offered to the application; on accept the
machine becomes `Active {snapshot, 1}`, on a rejection it stays idle
and reports the distinguishable benign rejection reason.  The reactor
only calls `Start` when the machine is neither active nor done. -/
def SyncState.Start (app : AppConn) (st : SyncState) (s : Snapshot) :
    SyncState × Option SyncErr :=
  match st with
  | .idle =>
    match app.offerSnapshot s with
    | .accept => (.active s 1, none)
    | .reject => (.idle, some .snapshotRejected)
    | .rejectFormat => (.idle, some .snapshotRejectedFormat)
    | .rejectHeight => (.idle, some .snapshotRejectedHeight)
  | st => (st, some .alreadyActive)

/-- Modelled from the spec: `Sync.NextChunk` returns the height and
format of the active snapshot and the index of the next chunk to
fetch. -/
def SyncState.NextChunk : SyncState → Nat × Nat × Nat
  | .active s n => (s.Height, s.Format, n)
  | _ => (0, 0, 0)

/-- Modelled from the spec: `Sync.Apply` (spec section 4.3).  In the
active state with expected chunk `n`, a chunk whose `(height, format,
chunk)` triple matches the expected triple is handed to the
application's `applyChunk`; on success the machine advances to
`Active {s, n+1}`, or to `Done {height, format}` when `n` was the final
chunk.  A mismatched triple is a protocol violation and an application
rejection is fatal; both are reported as errors (which the reactor
panics on).  Outside the active state nothing is applied.  The middle
component of the result records the calls made to the application's
`applyChunk`. -/
def SyncState.Apply (app : AppConn) (st : SyncState) (c : SnapshotChunk) :
    SyncState × List SnapshotChunk × Option SyncErr :=
  match st with
  | .active s n =>
    if c.Height = s.Height ∧ c.Format = s.Format ∧ c.Chunk = n then
      if app.applyChunk c then
        if n = s.Chunks then (.done s.Height s.Format, [c], none)
        else (.active s (n + 1), [c], none)
      else (.active s n, [c], some .chunkApplyFailed)
    else (.active s n, [], some .chunkMismatch)
  | st => (st, [], some .noRestoreInProgress)

/-- The snapshot height read by the reactor as `ssR.sync.snapshot.Height`. -/
def SyncState.snapshotHeight : SyncState → Nat
  | .active s _ => s.Height
  | _ => 0

/-- The snapshot format read by the reactor as `ssR.sync.snapshot.Format`. -/
def SyncState.snapshotFormat : SyncState → Nat
  | .active s _ => s.Format
  | _ => 0

/-- The next chunk index read by the reactor as `ssR.sync.nextChunk`. -/
def SyncState.nextChunkIndex : SyncState → Nat
  | .active _ n => n
  | _ => 0

/-- From the source: the comparator passed to `sort.Slice` over the
received snapshots.  `snapLess a b` holds when `a` sorts before `b`:
it is false exactly when `a.Height < b.Height`, or the heights tie and
`a.Format < b.Format`; sorting with it yields descending
(height, format) order. -/
def snapLess (a b : Snapshot) : Bool :=
  if a.Height < b.Height then false
  else if a.Height = b.Height ∧ a.Format < b.Format then false
  else true

/-- The result of processing one inbound event in the reactor: the sync
state afterwards, the messages sent to the source peer (with their
channel), whether the peer was stopped via `StopPeerForError`, the
snapshots offered to the application, the chunks handed to the
application's `applyChunk`, and whether the handler panicked. -/
structure RecvResult where
  sync : SyncState
  sends : List (Nat × Message)
  stoppedPeer : Bool
  offered : List Snapshot
  applied : List SnapshotChunk
  panicked : Bool
deriving Repr, DecidableEq

/-- A result with no effects: the sync state is unchanged and nothing
was sent, offered, applied, stopped or panicked. -/
def noEffects (st : SyncState) : RecvResult :=
  { sync := st, sends := [], stoppedPeer := false, offered := [],
    applied := [], panicked := false }

/-- From the source: the `for _, snapshot := range snapshots` loop of
the `ListSnapshotsResponseMessage` branch.  Each candidate is offered
via `Sync.Start`; a benign rejection continues with the next candidate,
and on the first accept the reactor reads `Sync.NextChunk`, sends one
`GetSnapshotChunkRequest` to the responding peer and breaks out of the
loop.  A non-benign error panics. -/
def offerLoop (app : AppConn) (st : SyncState) :
    List Snapshot → RecvResult
  | [] => noEffects st
  | s :: rest =>
    match SyncState.Start app st s with
    | (st', none) =>
      let hfc := st'.NextChunk
      { sync := st',
        sends := [(ChunkChannel,
          .getSnapshotChunkRequest hfc.1 hfc.2.1 hfc.2.2)],
        stoppedPeer := false, offered := [s], applied := [],
        panicked := false }
    | (st', some e) =>
      match e with
      | .snapshotRejected | .snapshotRejectedFormat
      | .snapshotRejectedHeight =>
        let r := offerLoop app st' rest
        { r with offered := s :: r.offered }
      | _ =>
        { sync := st', sends := [], stoppedPeer := false,
          offered := [s], applied := [], panicked := true }

/-- From the source: the dispatch on `(channel, message variant)` in
`Reactor.Receive` after decoding and validation.  Metadata channel:
serve snapshot listings, or hand a listing to the restore machine.
Chunk channel: serve a chunk from the application, or apply a received
chunk and request the next one. -/
def handleMessage (app : AppConn) (chID : Nat) (st : SyncState) :
    Message → RecvResult
  | .listSnapshotsRequest =>
    if chID = MetadataChannel then
      match app.listSnapshots with
      | .error _ => noEffects st
      | .ok snaps =>
        { noEffects st with
          sends := [(MetadataChannel, .listSnapshotsResponse snaps)] }
    else noEffects st
  | .listSnapshotsResponse snaps =>
    if chID = MetadataChannel then
      if st.IsActive || st.IsDone then noEffects st
      else if snaps.length = 0 then noEffects st
      else offerLoop app st (snaps.mergeSort snapLess)
    else noEffects st
  | .getSnapshotChunkRequest h f c =>
    if chID = ChunkChannel then
      match app.getSnapshotChunk h f c with
      | .error _ => { noEffects st with panicked := true }
      | .ok none => { noEffects st with panicked := true }
      | .ok (some chunk) =>
        { noEffects st with
          sends := [(ChunkChannel, .getSnapshotChunkResponse chunk)] }
    else noEffects st
  | .getSnapshotChunkResponse c =>
    if chID = ChunkChannel then
      if !st.IsActive then noEffects st
      else
        match SyncState.Apply app st c with
        | (st', calls, some _) =>
          { sync := st', sends := [], stoppedPeer := false,
            offered := [], applied := calls, panicked := true }
        | (st', calls, none) =>
          if st'.IsDone then { noEffects st' with applied := calls }
          else
            { noEffects st' with
              applied := calls
              sends := [(ChunkChannel,
                .getSnapshotChunkRequest st'.snapshotHeight
                  st'.snapshotFormat st'.nextChunkIndex)] }
    else noEffects st

/-- From the source: `Reactor.Receive`.  A non-running reactor ignores
the bytes; a decode failure or a `ValidateBasic` failure stops the
sending peer and has no further effect; a valid message is dispatched
by channel and variant. -/
def Receive (app : AppConn) (dec : List Nat → Option Message)
    (isRunning : Bool) (chID : Nat) (st : SyncState) (bz : List Nat) :
    RecvResult :=
  if !isRunning then noEffects st
  else
    match decodeMsg dec bz with
    | .error _ => { noEffects st with stoppedPeer := true }
    | .ok msg =>
      if msg.ValidateBasic then handleMessage app chID st msg
      else { noEffects st with stoppedPeer := true }

/-- From the source: the guard of the solicitation loop spawned by
`Reactor.AddPeer` — it sends a `ListSnapshotsRequest` while the peer is
running and the sync is neither active nor done.  The configuration's
`Enabled` flag is available on the reactor but the loop does not
consult it (`Reactor.OnStart` checks it but only logs), which is why it
appears as an unused argument here. -/
def AddPeerFirstSend (_enabled : Bool) (peerRunning : Bool)
    (st : SyncState) : Option (Nat × Message) :=
  if peerRunning && !st.IsActive && !st.IsDone then
    some (MetadataChannel, .listSnapshotsRequest)
  else none

/-- Processing a sequence of `GetSnapshotChunkResponse` events through
the reactor (the restore path): each chunk response is handled in turn
by `handleMessage` on the chunk channel; a panic aborts the run.  The
sends, applied chunks and effects of the individual steps are
concatenated. -/
def runChunks (app : AppConn) (st : SyncState) :
    List SnapshotChunk → RecvResult
  | [] => noEffects st
  | c :: rest =>
    let r := handleMessage app ChunkChannel st (.getSnapshotChunkResponse c)
    if r.panicked then r
    else
      let r' := runChunks app r.sync rest
      { sync := r'.sync, sends := r.sends ++ r'.sends,
        stoppedPeer := r.stoppedPeer || r'.stoppedPeer,
        offered := r.offered ++ r'.offered,
        applied := r.applied ++ r'.applied,
        panicked := r'.panicked }


/-! ## Helper facts about the snapshot comparator -/

/-- `snapLess a b` holds exactly when `b`'s (height, format) key is at
most `a`'s in lexicographic order: sorting with it is descending. -/
theorem snapLess_eq_true_iff (a b : Snapshot) :
    snapLess a b = true ↔
      (b.Height < a.Height ∨ (a.Height = b.Height ∧ b.Format ≤ a.Format)) := by
  unfold snapLess
  split
  · simp only [Bool.false_eq_true, false_iff]
    omega
  · split
    · simp only [Bool.false_eq_true, false_iff]
      omega
    · simp only [true_iff]
      omega

/-- The comparator is reflexive. -/
theorem snapLess_refl (a : Snapshot) : snapLess a a = true := by
  rw [snapLess_eq_true_iff]
  omega

/-- The comparator is total. -/
theorem snapLess_total (a b : Snapshot) :
    (snapLess a b || snapLess b a) = true := by
  rw [Bool.or_eq_true, snapLess_eq_true_iff, snapLess_eq_true_iff]
  omega

/-- The comparator is transitive. -/
theorem snapLess_trans (a b c : Snapshot) (hab : snapLess a b = true)
    (hbc : snapLess b c = true) : snapLess a c = true := by
  rw [snapLess_eq_true_iff] at hab hbc ⊢
  omega

/-- A fully cooperative application connection, used to evaluate the
claim theorems at concrete inputs: it reports no snapshots, serves no
chunks, accepts every offer and applies every chunk. -/
def appAlways : AppConn where
  listSnapshots := .ok []
  getSnapshotChunk := fun _ _ _ => .ok none
  offerSnapshot := fun _ => .accept
  applyChunk := fun _ => true

/-! ## Claim theorems -/

/-- C3: once the sync state machine is active or done, a further
`ListSnapshotsResponse` leaves the sync state unchanged and has no
effect: no snapshot is offered and no message is sent. -/
theorem listResponse_ignored_when_active_or_done (app : AppConn)
    (st : SyncState) (snaps : List Snapshot)
    (h : st.IsActive = true ∨ st.IsDone = true) :
    handleMessage app MetadataChannel st (.listSnapshotsResponse snaps) =
      noEffects st := by
  cases st with
  | idle => simp [SyncState.IsActive, SyncState.IsDone] at h
  | active s n => simp [handleMessage, SyncState.IsActive]
  | done hh ff => simp [handleMessage, SyncState.IsDone]

/-- Witness for C3 at a concrete done state. -/
theorem listResponse_ignored_when_active_or_done_witness :
    ((SyncState.done 1 1).IsActive = true ∨
      (SyncState.done 1 1).IsDone = true) ∧
      handleMessage appAlways MetadataChannel (.done 1 1)
        (.listSnapshotsResponse [⟨1, 0, 1, []⟩]) = noEffects (.done 1 1) :=
  ⟨Or.inr (by decide),
    listResponse_ignored_when_active_or_done appAlways (.done 1 1)
      [⟨1, 0, 1, []⟩] (Or.inr (by decide))⟩

/-- From the source `Reactor.OnStart`: both branches return a nil
error (the `Enabled` check only logs), so the reactor is started and
running whether or not state sync is enabled in the configuration. -/
def OnStart (_enabled : Bool) : Option SyncErr := none

/-- C4 fails on the code: with state sync disabled in the
configuration, the reactor still starts (OnStart returns no error) and
the solicitation loop spawned by `AddPeer` still sends a
`ListSnapshotsRequest` to a running peer while the sync is idle — the
loop never consults the `Enabled` flag. -/
theorem disabled_reactor_still_solicits :
    OnStart false = none ∧
      AddPeerFirstSend false true .idle =
        some (MetadataChannel, .listSnapshotsRequest) := by
  constructor
  · rfl
  · rfl

/-- C5 fails on the code: the restore path applies a chunk without
verifying its checksum.  For every digest function (in the source,
SHA-1 over the chunk data) there is a chunk whose checksum field does
not match the digest of its data yet which is handed to the
application's `applyChunk` and completes the restore. -/
theorem chunk_applied_without_checksum_verification
    (digest : List Nat → List Nat) :
    ∃ cs : List Nat, cs ≠ digest [] ∧
      (handleMessage appAlways ChunkChannel (.active ⟨1, 1, 1, []⟩ 1)
        (.getSnapshotChunkResponse ⟨1, 1, 1, [], cs⟩)).applied =
        [⟨1, 1, 1, [], cs⟩] ∧
      (handleMessage appAlways ChunkChannel (.active ⟨1, 1, 1, []⟩ 1)
        (.getSnapshotChunkResponse ⟨1, 1, 1, [], cs⟩)).sync =
        .done 1 1 := by
  by_cases h : digest [] = List.replicate 20 0
  · refine ⟨List.replicate 20 1, ?_, by decide, by decide⟩
    rw [h]
    decide
  · exact ⟨List.replicate 20 0, fun hc => h hc.symm, by decide, by decide⟩

/-- C6 fails on the code: a snapshot with chunk count 0 (and non-zero
height) passes `ValidateBasic`, both on its own and inside a
`ListSnapshotsResponse` — the chunk count is never inspected. -/
theorem chunks_zero_passes_validation :
    Snapshot.Chunks ⟨1, 0, 0, []⟩ = 0 ∧
      Snapshot.ValidateBasic ⟨1, 0, 0, []⟩ = true ∧
      Message.ValidateBasic (.listSnapshotsResponse [⟨1, 0, 0, []⟩]) =
        true := by
  decide

/-- C6 amended: validation accepts a `ListSnapshotsResponse` exactly
when every snapshot in it has non-zero height; the chunk count is not
checked. -/
theorem listResponse_valid_iff_heights_nonzero (snaps : List Snapshot) :
    Message.ValidateBasic (.listSnapshotsResponse snaps) = true ↔
      ∀ s ∈ snaps, s.Height ≠ 0 := by
  simp [Message.ValidateBasic, Snapshot.ValidateBasic, List.all_eq_true]

/-- A codec stub used to evaluate theorems about `Receive` at concrete
inputs: it decodes every byte string to a fixed chunk request with
height 0 (which fails validation). -/
def decInvalidRequest : List Nat → Option Message :=
  fun _ => some (.getSnapshotChunkRequest 0 1 1)

/-- C7: a chunk request passes `ValidateBasic` exactly when its height
and chunk index are non-zero; a decoded message that fails
`ValidateBasic` only stops the sending peer and has no further effect
(the sync state is unchanged, nothing is sent, offered or applied); a
decoded message that passes is dispatched by channel and variant. -/
theorem validate_before_dispatch (app : AppConn)
    (dec : List Nat → Option Message) (chID : Nat) (st : SyncState)
    (bz : List Nat) (msg : Message)
    (hdec : decodeMsg dec bz = .ok msg) :
    (∀ h f c : Nat,
        Message.ValidateBasic (.getSnapshotChunkRequest h f c) = true ↔
          (h ≠ 0 ∧ c ≠ 0)) ∧
      (msg.ValidateBasic = false →
        Receive app dec true chID st bz =
          { noEffects st with stoppedPeer := true }) ∧
      (msg.ValidateBasic = true →
        Receive app dec true chID st bz = handleMessage app chID st msg) := by
  refine ⟨fun h f c => ?_, fun hv => ?_, fun hv => ?_⟩
  · simp [Message.ValidateBasic]
  · simp [Receive, hdec, hv]
  · simp [Receive, hdec, hv]

/-- Witness for C7: a decoded chunk request with height 0 fails
validation, and the reactor stops the peer without any other effect. -/
theorem validate_before_dispatch_witness :
    decodeMsg decInvalidRequest [] = .ok (.getSnapshotChunkRequest 0 1 1) ∧
      ((Message.getSnapshotChunkRequest 0 1 1).ValidateBasic = false →
        Receive appAlways decInvalidRequest true ChunkChannel .idle [] =
          { noEffects .idle with stoppedPeer := true }) :=
  ⟨rfl,
    (validate_before_dispatch appAlways decInvalidRequest ChunkChannel
      .idle [] _ rfl).2.1⟩

/-- C8: a byte string longer than `maxMsgSize` (65e6 bytes) fails to
decode with the oversize error, and receiving it stops the sending
peer while leaving the sync state unchanged, with no other effect. -/
theorem oversize_message_rejected (dec : List Nat → Option Message)
    (bz : List Nat) (hlen : bz.length > maxMsgSize) :
    decodeMsg dec bz = .error .oversizeMessage ∧
      ∀ (app : AppConn) (chID : Nat) (st : SyncState),
        Receive app dec true chID st bz =
          { noEffects st with stoppedPeer := true } := by
  refine ⟨by simp [decodeMsg, hlen], fun app chID st => ?_⟩
  simp [Receive, decodeMsg, hlen]

/-- Witness for C8 at the boundary: a message of exactly 65e6 + 1
bytes is over the limit and fails to decode with the oversize error. -/
theorem oversize_message_rejected_witness :
    (List.replicate 65000001 (0 : Nat)).length > maxMsgSize ∧
      decodeMsg (fun _ => none) (List.replicate 65000001 (0 : Nat)) =
        .error .oversizeMessage :=
  ⟨by rw [List.length_replicate]; decide,
    (oversize_message_rejected (fun _ => none) _
      (by rw [List.length_replicate]; decide)).1⟩

/-- C9 fails on the code: while the sync is active expecting chunk 1,
a chunk response carrying chunk index 2 (a mismatched triple) is not
applied, but the sending peer is NOT stopped — the reactor panics on
the mismatch error instead (there is no `StopPeerForError` call on the
chunk-response path of the source). -/
theorem mismatched_chunk_peer_not_stopped :
    (¬ (SnapshotChunk.Height ⟨1, 2, 1, [], []⟩ =
          Snapshot.Height ⟨1, 1, 2, []⟩ ∧
        SnapshotChunk.Format ⟨1, 2, 1, [], []⟩ =
          Snapshot.Format ⟨1, 1, 2, []⟩ ∧
        SnapshotChunk.Chunk ⟨1, 2, 1, [], []⟩ = 1)) ∧
      (handleMessage appAlways ChunkChannel (.active ⟨1, 1, 2, []⟩ 1)
        (.getSnapshotChunkResponse ⟨1, 2, 1, [], []⟩)).stoppedPeer =
        false ∧
      (handleMessage appAlways ChunkChannel (.active ⟨1, 1, 2, []⟩ 1)
        (.getSnapshotChunkResponse ⟨1, 2, 1, [], []⟩)).applied = [] ∧
      (handleMessage appAlways ChunkChannel (.active ⟨1, 1, 2, []⟩ 1)
        (.getSnapshotChunkResponse ⟨1, 2, 1, [], []⟩)).panicked = true := by
  decide

/-- C9 amended: while the sync is active, a chunk response whose
(height, format, chunk) triple differs from the expected triple is
never handed to the application and causes no chunk request and no
state change; the reactor panics on the resulting error from
`Sync.Apply` instead of stopping the sending peer. -/
theorem mismatched_chunk_not_applied (app : AppConn) (s : Snapshot)
    (n : Nat) (c : SnapshotChunk)
    (hm : ¬ (c.Height = s.Height ∧ c.Format = s.Format ∧ c.Chunk = n)) :
    handleMessage app ChunkChannel (.active s n)
      (.getSnapshotChunkResponse c) =
      { sync := .active s n, sends := [], stoppedPeer := false,
        offered := [], applied := [], panicked := true } := by
  simp [handleMessage, SyncState.IsActive, SyncState.Apply, hm]

/-- Witness for the amended C9 at a concrete mismatched chunk. -/
theorem mismatched_chunk_not_applied_witness :
    (¬ (SnapshotChunk.Height ⟨1, 2, 1, [], []⟩ =
          Snapshot.Height ⟨1, 1, 2, []⟩ ∧
        SnapshotChunk.Format ⟨1, 2, 1, [], []⟩ =
          Snapshot.Format ⟨1, 1, 2, []⟩ ∧
        SnapshotChunk.Chunk ⟨1, 2, 1, [], []⟩ = 1)) ∧
      handleMessage appAlways ChunkChannel (.active ⟨1, 1, 2, []⟩ 1)
        (.getSnapshotChunkResponse ⟨1, 2, 1, [], []⟩) =
        { sync := .active ⟨1, 1, 2, []⟩ 1, sends := [],
          stoppedPeer := false, offered := [], applied := [],
          panicked := true } :=
  ⟨by decide,
    mismatched_chunk_not_applied appAlways ⟨1, 1, 2, []⟩ 1
      ⟨1, 2, 1, [], []⟩ (by decide)⟩

/-- C10: the serving path never mutates the restore state machine.
Handling a `ListSnapshotsRequest` or a `GetSnapshotChunkRequest`
leaves the sync state exactly as it was, offers and applies nothing,
stops no peer, and sends the response obtained from the application's
answer to the requesting peer (on an application failure nothing is
sent; a failing or nil chunk load panics, as in the source). -/
theorem serving_path_preserves_sync (app : AppConn) (st : SyncState) :
    (handleMessage app MetadataChannel st .listSnapshotsRequest =
      { noEffects st with
        sends := match app.listSnapshots with
          | .ok snaps => [(MetadataChannel, .listSnapshotsResponse snaps)]
          | .error _ => [] }) ∧
      ∀ h f c : Nat,
        handleMessage app ChunkChannel st (.getSnapshotChunkRequest h f c) =
          { noEffects st with
            sends := match app.getSnapshotChunk h f c with
              | .ok (some chunk) =>
                [(ChunkChannel, .getSnapshotChunkResponse chunk)]
              | _ => []
            panicked := match app.getSnapshotChunk h f c with
              | .ok (some _) => false
              | _ => true } := by
  constructor
  · rcases hl : app.listSnapshots with e | snaps <;>
      simp [handleMessage, hl, noEffects]
  · intro h f c
    rcases hg : app.getSnapshotChunk h f c with e | ck
    · simp [handleMessage, hg, noEffects]
    · rcases ck with _ | chunk <;> simp [handleMessage, hg, noEffects]

/-- Decomposition of the offer loop: when some candidate in the list
is accepted by the application, the loop offers exactly the (all
rejected) candidates preceding the first accepted one, becomes active
on the first accepted candidate with next chunk 1, and sends exactly
one chunk request, for chunk 1 of that snapshot. -/
theorem offerLoop_first_accept (app : AppConn) :
    ∀ l : List Snapshot, (∃ t ∈ l, app.offerSnapshot t = .accept) →
      ∃ before s₀ after,
        l = before ++ s₀ :: after ∧
        (∀ t ∈ before, app.offerSnapshot t ≠ .accept) ∧
        app.offerSnapshot s₀ = .accept ∧
        offerLoop app .idle l =
          { sync := .active s₀ 1
            sends := [(ChunkChannel,
              .getSnapshotChunkRequest s₀.Height s₀.Format 1)]
            stoppedPeer := false
            offered := before ++ [s₀]
            applied := []
            panicked := false }
  | [], h => by simp at h
  | s :: rest, h => by
    by_cases hs : app.offerSnapshot s = .accept
    · refine ⟨[], s, rest, rfl, by simp, hs, ?_⟩
      simp [offerLoop, SyncState.Start, hs, SyncState.NextChunk]
    · have hrest : ∃ t ∈ rest, app.offerSnapshot t = .accept := by
        obtain ⟨t, ht, hta⟩ := h
        rcases List.mem_cons.mp ht with rfl | htr
        · exact absurd hta hs
        · exact ⟨t, htr, hta⟩
      obtain ⟨before, s₀, after, heq, hbef, hs₀, hloop⟩ :=
        offerLoop_first_accept app rest hrest
      have hred : offerLoop app .idle (s :: rest) =
          { offerLoop app .idle rest with
            offered := s :: (offerLoop app .idle rest).offered } := by
        rcases hc : app.offerSnapshot s with _ | _ | _ | _
        · exact absurd hc hs
        all_goals simp [offerLoop, SyncState.Start, hc]
      refine ⟨s :: before, s₀, after, by rw [heq]; rfl, ?_, hs₀, ?_⟩
      · intro t ht
        rcases List.mem_cons.mp ht with rfl | htr
        · exact hs
        · exact hbef t htr
      · rw [hred, hloop]
        rfl

/-- C1: while the sync is neither active nor done, a
`ListSnapshotsResponse` containing at least one snapshot the
application accepts makes the reactor offer candidates in descending
(height, format) order, become active with a highest-ranked acceptable
snapshot (all candidates offered before it were rejected, and every
acceptable candidate ranks at or below it), and send exactly one
`GetSnapshotChunkRequest` for chunk 1 of that snapshot to the
responding peer, with no further candidate offered after the accept. -/
theorem highest_ranked_acceptable_snapshot_restored (app : AppConn)
    (st : SyncState) (snaps : List Snapshot)
    (hna : st.IsActive = false) (hnd : st.IsDone = false)
    (hne : snaps ≠ [])
    (hacc : ∃ t ∈ snaps, app.offerSnapshot t = .accept) :
    ∃ s₀ before,
      app.offerSnapshot s₀ = .accept ∧
      s₀ ∈ snaps ∧
      (∀ t ∈ snaps, app.offerSnapshot t = .accept →
        snapLess s₀ t = true) ∧
      (∀ t ∈ before, app.offerSnapshot t ≠ .accept) ∧
      (before ++ [s₀]).Pairwise (fun a b => snapLess a b = true) ∧
      handleMessage app MetadataChannel st (.listSnapshotsResponse snaps) =
        { sync := .active s₀ 1
          sends := [(ChunkChannel,
            .getSnapshotChunkRequest s₀.Height s₀.Format 1)]
          stoppedPeer := false
          offered := before ++ [s₀]
          applied := []
          panicked := false } := by
  have hidle : st = .idle := by
    cases st with
    | idle => rfl
    | active s n => simp [SyncState.IsActive] at hna
    | done hh ff => simp [SyncState.IsDone] at hnd
  subst hidle
  have hperm : (snaps.mergeSort snapLess).Perm snaps :=
    List.mergeSort_perm snaps snapLess
  have hpair : (snaps.mergeSort snapLess).Pairwise
      (fun a b => snapLess a b = true) :=
    List.sorted_mergeSort snapLess_trans snapLess_total snaps
  have haccs : ∃ t ∈ snaps.mergeSort snapLess,
      app.offerSnapshot t = .accept := by
    obtain ⟨t, ht, hta⟩ := hacc
    exact ⟨t, hperm.mem_iff.mpr ht, hta⟩
  obtain ⟨before, s₀, after, heq, hbef, hs₀, hloop⟩ :=
    offerLoop_first_accept app (snaps.mergeSort snapLess) haccs
  have hs₀mem : s₀ ∈ snaps.mergeSort snapLess := by
    rw [heq]
    exact List.mem_append_right _ (List.mem_cons_self _ _)
  refine ⟨s₀, before, hs₀, hperm.mem_iff.mp hs₀mem, ?_, hbef, ?_, ?_⟩
  · intro t ht hta
    have hts : t ∈ snaps.mergeSort snapLess := hperm.mem_iff.mpr ht
    rw [heq] at hts hpair
    rcases List.mem_append.mp hts with htb | htc
    · exact absurd hta (hbef t htb)
    · rcases List.mem_cons.mp htc with rfl | hta2
      · exact snapLess_refl t
      · exact (List.pairwise_cons.mp
          (List.pairwise_append.mp hpair).2.1).1 t hta2
  · have hsub : (before ++ [s₀]).Sublist (before ++ s₀ :: after) :=
      List.Sublist.append_left
        (List.Sublist.cons₂ s₀ (List.nil_sublist after)) before
    rw [heq] at hpair
    exact List.Pairwise.sublist hsub hpair
  · have hlen : ¬ snaps.length = 0 := by
      cases snaps with
      | nil => exact absurd rfl hne
      | cons a l => simp
    simpa [handleMessage, SyncState.IsActive, SyncState.IsDone, hlen]
      using hloop

/-- Witness for C1 with one acceptable snapshot offered from idle. -/
theorem highest_ranked_acceptable_snapshot_restored_witness :
    SyncState.idle.IsActive = false ∧ SyncState.idle.IsDone = false ∧
      ([(⟨10, 1, 2, []⟩ : Snapshot)] ≠ []) ∧
      (∃ t ∈ [(⟨10, 1, 2, []⟩ : Snapshot)],
        appAlways.offerSnapshot t = .accept) ∧
      (∃ s₀ before,
        appAlways.offerSnapshot s₀ = .accept ∧
        s₀ ∈ [(⟨10, 1, 2, []⟩ : Snapshot)] ∧
        (∀ t ∈ [(⟨10, 1, 2, []⟩ : Snapshot)],
          appAlways.offerSnapshot t = .accept → snapLess s₀ t = true) ∧
        (∀ t ∈ before, appAlways.offerSnapshot t ≠ .accept) ∧
        (before ++ [s₀]).Pairwise (fun a b => snapLess a b = true) ∧
        handleMessage appAlways MetadataChannel .idle
          (.listSnapshotsResponse [⟨10, 1, 2, []⟩]) =
          { sync := .active s₀ 1
            sends := [(ChunkChannel,
              .getSnapshotChunkRequest s₀.Height s₀.Format 1)]
            stoppedPeer := false
            offered := before ++ [s₀]
            applied := []
            panicked := false }) :=
  ⟨rfl, rfl, by decide, ⟨⟨10, 1, 2, []⟩, by decide, rfl⟩,
    highest_ranked_acceptable_snapshot_restored appAlways .idle
      [⟨10, 1, 2, []⟩] rfl rfl (by decide)
      ⟨⟨10, 1, 2, []⟩, by decide, rfl⟩⟩

/-- A run of chunk responses arriving in the done state has no effect:
each response is dropped because no restore is in progress. -/
theorem runChunks_done (app : AppConn) (h f : Nat) :
    ∀ cs : List SnapshotChunk,
      runChunks app (.done h f) cs = noEffects (.done h f)
  | [] => rfl
  | c :: rest => by
    have ih := runChunks_done app h f rest
    simp [runChunks, handleMessage, SyncState.IsActive, ih, noEffects]


/-- Unfolding of `runChunks` over a first event whose handling
panics: the run aborts with that event's result. -/
theorem runChunks_cons_panic (app : AppConn) (st : SyncState)
    (c : SnapshotChunk) (rest : List SnapshotChunk)
    (hp : (handleMessage app ChunkChannel st
      (.getSnapshotChunkResponse c)).panicked = true) :
    runChunks app st (c :: rest) =
      handleMessage app ChunkChannel st (.getSnapshotChunkResponse c) := by
  simp [runChunks, hp]

/-- Unfolding of `runChunks` over a first event whose handling does
not panic: the run continues from the new sync state and the effects
are concatenated. -/
theorem runChunks_cons_ok (app : AppConn) (st : SyncState)
    (c : SnapshotChunk) (rest : List SnapshotChunk)
    (hp : (handleMessage app ChunkChannel st
      (.getSnapshotChunkResponse c)).panicked = false) :
    runChunks app st (c :: rest) =
      { sync := (runChunks app (handleMessage app ChunkChannel st
          (.getSnapshotChunkResponse c)).sync rest).sync
        sends := (handleMessage app ChunkChannel st
            (.getSnapshotChunkResponse c)).sends ++
          (runChunks app (handleMessage app ChunkChannel st
            (.getSnapshotChunkResponse c)).sync rest).sends
        stoppedPeer := (handleMessage app ChunkChannel st
            (.getSnapshotChunkResponse c)).stoppedPeer ||
          (runChunks app (handleMessage app ChunkChannel st
            (.getSnapshotChunkResponse c)).sync rest).stoppedPeer
        offered := (handleMessage app ChunkChannel st
            (.getSnapshotChunkResponse c)).offered ++
          (runChunks app (handleMessage app ChunkChannel st
            (.getSnapshotChunkResponse c)).sync rest).offered
        applied := (handleMessage app ChunkChannel st
            (.getSnapshotChunkResponse c)).applied ++
          (runChunks app (handleMessage app ChunkChannel st
            (.getSnapshotChunkResponse c)).sync rest).applied
        panicked := (runChunks app (handleMessage app ChunkChannel st
          (.getSnapshotChunkResponse c)).sync rest).panicked } := by
  simp [runChunks, hp]

/-- The restore invariant behind C2: a run of chunk responses that
drives the machine from `Active {s, n}` to done has restored exactly
snapshot `s`, handed the chunks `n, n+1, ..., s.Chunks` to the
application's `applyChunk` in exactly this (strictly ascending) order,
and sent exactly the chunk requests `n+1, ..., s.Chunks`, in order. -/
theorem runChunks_active_done (app : AppConn) (s : Snapshot) :
    ∀ (cs : List SnapshotChunk) (n h f : Nat),
      (runChunks app (.active s n) cs).sync = .done h f →
      h = s.Height ∧ f = s.Format ∧ n ≤ s.Chunks ∧
      (runChunks app (.active s n) cs).applied.map SnapshotChunk.Chunk =
        List.range' n (s.Chunks + 1 - n) ∧
      (runChunks app (.active s n) cs).sends =
        (List.range' (n + 1) (s.Chunks - n)).map
          (fun i => (ChunkChannel,
            Message.getSnapshotChunkRequest s.Height s.Format i))
  | [], n, h, f => by
    intro hdone
    simp [runChunks, noEffects] at hdone
  | c :: rest, n, h, f => by
    intro hdone
    by_cases hm : c.Height = s.Height ∧ c.Format = s.Format ∧ c.Chunk = n
    · by_cases ha : app.applyChunk c = true
      · by_cases hn : n = s.Chunks
        · -- the final chunk: the machine is done, nothing more happens
          have hr : handleMessage app ChunkChannel (.active s n)
              (.getSnapshotChunkResponse c) =
              { sync := .done s.Height s.Format
                sends := []
                stoppedPeer := false
                offered := []
                applied := [c]
                panicked := false } := by
            simp [handleMessage, SyncState.IsActive, SyncState.Apply, hm,
              ha, hn, SyncState.IsDone, noEffects]
          rw [runChunks_cons_ok app _ c rest (by rw [hr])] at hdone ⊢
          simp only [hr, runChunks_done, noEffects] at hdone ⊢
          obtain ⟨hh, hf⟩ := SyncState.done.inj hdone
          subst hh
          subst hf
          refine ⟨rfl, rfl, Nat.le_of_eq hn, ?_, ?_⟩
          · have h1 : s.Chunks + 1 - n = 1 := by omega
            simp [h1, List.range'_one, hm.2.2]
          · have h0 : s.Chunks - n = 0 := by omega
            simp [h0]
        · -- a middle chunk: advance and request the next chunk
          have hr : handleMessage app ChunkChannel (.active s n)
              (.getSnapshotChunkResponse c) =
              { sync := .active s (n + 1)
                sends := [(ChunkChannel,
                  .getSnapshotChunkRequest s.Height s.Format (n + 1))]
                stoppedPeer := false
                offered := []
                applied := [c]
                panicked := false } := by
            simp [handleMessage, SyncState.IsActive, SyncState.Apply, hm,
              ha, hn, SyncState.IsDone, SyncState.snapshotHeight,
              SyncState.snapshotFormat, SyncState.nextChunkIndex, noEffects]
          rw [runChunks_cons_ok app _ c rest (by rw [hr])] at hdone ⊢
          simp only [hr] at hdone ⊢
          obtain ⟨hh, hf, hle, happ, hsend⟩ :=
            runChunks_active_done app s rest (n + 1) h f hdone
          refine ⟨hh, hf, by omega, ?_, ?_⟩
          · have e1 : s.Chunks + 1 - n = (s.Chunks + 1 - (n + 1)) + 1 := by
              omega
            rw [List.map_append, happ, e1, List.range'_succ]
            simp [hm.2.2]
          · have e2 : s.Chunks - n = (s.Chunks - (n + 1)) + 1 := by omega
            rw [hsend, e2, List.range'_succ]
            simp
      · -- the application rejected the chunk: the reactor panics
        have hr : handleMessage app ChunkChannel (.active s n)
            (.getSnapshotChunkResponse c) =
            { sync := .active s n
              sends := []
              stoppedPeer := false
              offered := []
              applied := [c]
              panicked := true } := by
          simp [handleMessage, SyncState.IsActive, SyncState.Apply, hm, ha]
        rw [runChunks_cons_panic app _ c rest (by rw [hr]), hr] at hdone
        simp at hdone
    · -- a mismatched chunk: the reactor panics
      have hr : handleMessage app ChunkChannel (.active s n)
          (.getSnapshotChunkResponse c) =
          { sync := .active s n
            sends := []
            stoppedPeer := false
            offered := []
            applied := []
            panicked := true } := by
        simp [handleMessage, SyncState.IsActive, SyncState.Apply, hm]
      rw [runChunks_cons_panic app _ c rest (by rw [hr]), hr] at hdone
      simp at hdone

/-- C2: every restore that reaches done from `Active {s, 1}` under a
sequence of chunk-response events restored exactly snapshot `s`, has
handed the application the chunk indices `1, ..., s.Chunks`, each
exactly once and in strictly ascending order, and has sent exactly one
`GetSnapshotChunkRequest` after each non-final apply — for the chunks
`2, ..., s.Chunks`, in order — and none after the final one. -/
theorem chunks_applied_exactly_once_ascending (app : AppConn)
    (s : Snapshot) (cs : List SnapshotChunk) (h f : Nat)
    (hdone : (runChunks app (.active s 1) cs).sync = .done h f) :
    h = s.Height ∧ f = s.Format ∧ 1 ≤ s.Chunks ∧
      (runChunks app (.active s 1) cs).applied.map SnapshotChunk.Chunk =
        List.range' 1 s.Chunks ∧
      (runChunks app (.active s 1) cs).sends =
        (List.range' 2 (s.Chunks - 1)).map
          (fun i => (ChunkChannel,
            Message.getSnapshotChunkRequest s.Height s.Format i)) := by
  obtain ⟨hh, hf, hle, happ, hsend⟩ :=
    runChunks_active_done app s cs 1 h f hdone
  have e : s.Chunks + 1 - 1 = s.Chunks := by omega
  rw [e] at happ
  exact ⟨hh, hf, hle, happ, hsend⟩

/-- Witness for C2: a two-chunk restore that runs to done. -/
theorem chunks_applied_exactly_once_ascending_witness :
    (runChunks appAlways (.active ⟨10, 1, 2, []⟩ 1)
        [⟨10, 1, 1, [], []⟩, ⟨10, 2, 1, [], []⟩]).sync = .done 10 1 ∧
      ((10 : Nat) = Snapshot.Height ⟨10, 1, 2, []⟩ ∧
        (1 : Nat) = Snapshot.Format ⟨10, 1, 2, []⟩ ∧
        1 ≤ Snapshot.Chunks ⟨10, 1, 2, []⟩ ∧
        (runChunks appAlways (.active ⟨10, 1, 2, []⟩ 1)
            [⟨10, 1, 1, [], []⟩, ⟨10, 2, 1, [], []⟩]).applied.map
            SnapshotChunk.Chunk =
          List.range' 1 (Snapshot.Chunks ⟨10, 1, 2, []⟩) ∧
        (runChunks appAlways (.active ⟨10, 1, 2, []⟩ 1)
            [⟨10, 1, 1, [], []⟩, ⟨10, 2, 1, [], []⟩]).sends =
          (List.range' 2 (Snapshot.Chunks ⟨10, 1, 2, []⟩ - 1)).map
            (fun i => (ChunkChannel,
              Message.getSnapshotChunkRequest
                (Snapshot.Height ⟨10, 1, 2, []⟩)
                (Snapshot.Format ⟨10, 1, 2, []⟩) i))) :=
  ⟨by decide,
    chunks_applied_exactly_once_ascending appAlways ⟨10, 1, 2, []⟩
      [⟨10, 1, 1, [], []⟩, ⟨10, 2, 1, [], []⟩] 10 1 (by decide)⟩

end StateSync
